import Mathlib

/-
Verification of the binder of rust-minsk against its specification.

The binder itself is translated from `src/minsk/src/binding.rs` and the
statement syntax from `src/minsk/src/syntax/statements.rs`.  The modules
those files import (`plumbing`, `text`, `diagnostic`, the expression
syntax, `binding/operators` and `binding/scope`) are not part of the
provided sources; they are modelled from the specification, as marked on
each such definition.  Source spans only feed diagnostic locations, which
the spec leaves to an external renderer, so tokens carry kind and text
but no span.
-/

set_option autoImplicit false

namespace Minsk

/-- Modelled from the spec: the primitive value kinds of the type system
(`ObjectKind` from the missing `plumbing` module): Number and Boolean. -/
inductive ObjectKind where
  | Number
  | Boolean
  deriving DecidableEq, Repr

/-- Modelled from the spec: a runtime value (`Object` from the missing
`plumbing` module); one variant per primitive kind. -/
inductive Object where
  | Number (n : Int)
  | Boolean (b : Bool)
  deriving DecidableEq, Repr

/-- Modelled from the spec: `Object::kind`, the value's own type. -/
def Object.kind : Object → ObjectKind
  | .Number _ => .Number
  | .Boolean _ => .Boolean

/-- Modelled from the spec: `VariableSymbol` from the missing `text`
module: name, read-only flag and declared type. -/
structure VariableSymbol where
  name : String
  is_read_only : Bool
  kind : ObjectKind
  deriving DecidableEq, Repr

/-- Modelled from the spec: the token kinds the binder consults
(`SyntaxKind` from the missing syntax module), restricted to the kinds
the binder and the operator tables read. -/
inductive SyntaxKind where
  | PlusToken
  | MinusToken
  | StarToken
  | SlashToken
  | AmpersandAmpersandToken
  | PipePipeToken
  | EqualsEqualsToken
  | BangEqualsToken
  | BangToken
  | EqualsToken
  | IdentifierToken
  | LetKeyword
  | VarKeyword
  deriving DecidableEq, Repr

/-- Modelled from the spec: a token as the binder reads it, carrying its
kind and text (spans are omitted, see the header comment). -/
structure SyntaxToken where
  kind : SyntaxKind
  text : String
  deriving DecidableEq, Repr

/-- Modelled from the spec: the expression syntax tree (the missing
`syntax/expressions.rs`), with exactly the fields the binder reads:
Literal carries its value, Name its identifier token, Assignment its
identifier token, equals token and inner expression, Unary and Binary
their operator token and operand(s), Parenthesized its inner
expression. -/
inductive ExpressionSyntax where
  | Literal (value : Object)
  | Name (identifier_token : SyntaxToken)
  | Assignment (identifier_token : SyntaxToken) (equals_token : SyntaxToken)
      (expression : ExpressionSyntax)
  | Unary (operator_token : SyntaxToken) (operand : ExpressionSyntax)
  | Binary (left : ExpressionSyntax) (operator_token : SyntaxToken)
      (right : ExpressionSyntax)
  | Parenthesized (expression : ExpressionSyntax)
  deriving DecidableEq, Repr

/-- The statement syntax tree, from `syntax/statements.rs`.  Block brace
tokens and the declaration's equals token only feed `children()` and
spans, which the binder never reads, so they are dropped here. -/
inductive StatementSyntax where
  | Block (statements : List StatementSyntax)
  | Expression (expression : ExpressionSyntax)
  | VariableDeclaration (keyword : SyntaxToken) (identifier : SyntaxToken)
      (initializer : ExpressionSyntax)

/-- Modelled from the spec: the compilation unit handed to
`bind_global_scope`; the binder reads only its single top-level
statement. -/
structure CompilationUnitSyntax where
  statement : StatementSyntax

/-- Modelled from the spec: one diagnostic record per `report_*` method of
the missing `diagnostic` module, carrying the structured data those
methods receive (minus spans). -/
inductive Diagnostic where
  | UndefinedBinaryOperator (operator_text : String) (left right : ObjectKind)
  | UndefinedUnaryOperator (operator_text : String) (operand : ObjectKind)
  | UndefinedName (name : String)
  | CannotAssign (name : String)
  | CannotConvert (fromType toType : ObjectKind)
  | VariableAlreadyDeclared (name : String)
  deriving DecidableEq, Repr

/-- The kinds of bound binary operators, from `binding.rs`. -/
inductive BoundBinaryOperatorKind where
  | Addition
  | Subtraction
  | Multiplication
  | Division
  | LogicalAnd
  | LogicalOr
  | Equality
  | Inequality
  deriving DecidableEq, Repr

/-- The kinds of bound unary operators, from `binding.rs`. -/
inductive BoundUnaryOperatorKind where
  | Identity
  | Negation
  | LogicalNegation
  deriving DecidableEq, Repr

/-- Modelled from the spec: a binary operator descriptor from the missing
`binding/operators` module: a table row keyed by token kind and both
operand types, carrying the result type and the evaluation-kind tag. -/
structure BoundBinaryOperator where
  syntax_kind : SyntaxKind
  kind : BoundBinaryOperatorKind
  left_type : ObjectKind
  right_type : ObjectKind
  result_type : ObjectKind
  deriving DecidableEq, Repr

/-- Modelled from the spec: the static binary operator table of §4.1:
arithmetic on Number×Number, logic on Boolean×Boolean, and equality and
inequality on any matching pair of identical types. -/
def BoundBinaryOperator.operators : List BoundBinaryOperator :=
  [⟨.PlusToken, .Addition, .Number, .Number, .Number⟩,
   ⟨.MinusToken, .Subtraction, .Number, .Number, .Number⟩,
   ⟨.StarToken, .Multiplication, .Number, .Number, .Number⟩,
   ⟨.SlashToken, .Division, .Number, .Number, .Number⟩,
   ⟨.AmpersandAmpersandToken, .LogicalAnd, .Boolean, .Boolean, .Boolean⟩,
   ⟨.PipePipeToken, .LogicalOr, .Boolean, .Boolean, .Boolean⟩,
   ⟨.EqualsEqualsToken, .Equality, .Number, .Number, .Boolean⟩,
   ⟨.EqualsEqualsToken, .Equality, .Boolean, .Boolean, .Boolean⟩,
   ⟨.BangEqualsToken, .Inequality, .Number, .Number, .Boolean⟩,
   ⟨.BangEqualsToken, .Inequality, .Boolean, .Boolean, .Boolean⟩]

/-- Modelled from the spec: `BoundBinaryOperator::bind`, a pure lookup
over the static table requiring the operand types to match exactly. -/
def BoundBinaryOperator.bind (k : SyntaxKind) (left right : ObjectKind) :
    Option BoundBinaryOperator :=
  BoundBinaryOperator.operators.find? fun op =>
    op.syntax_kind == k && op.left_type == left && op.right_type == right

/-- Modelled from the spec: a unary operator descriptor from the missing
`binding/operators` module. -/
structure BoundUnaryOperator where
  syntax_kind : SyntaxKind
  kind : BoundUnaryOperatorKind
  operand_type : ObjectKind
  result_type : ObjectKind
  deriving DecidableEq, Repr

/-- Modelled from the spec: the static unary operator table of §4.1. -/
def BoundUnaryOperator.operators : List BoundUnaryOperator :=
  [⟨.PlusToken, .Identity, .Number, .Number⟩,
   ⟨.MinusToken, .Negation, .Number, .Number⟩,
   ⟨.BangToken, .LogicalNegation, .Boolean, .Boolean⟩]

/-- Modelled from the spec: `BoundUnaryOperator::bind`, a pure lookup over
the static table requiring the operand type to match exactly. -/
def BoundUnaryOperator.bind (k : SyntaxKind) (operand : ObjectKind) :
    Option BoundUnaryOperator :=
  BoundUnaryOperator.operators.find? fun op =>
    op.syntax_kind == k && op.operand_type == operand

/-- The bound expression tree, from `binding.rs`.  Operator descriptors
are stored by value (the source stores `&'static` references into the
static tables). -/
inductive BoundExpression where
  | Binary (left : BoundExpression) (operator : BoundBinaryOperator)
      (right : BoundExpression)
  | Unary (operator : BoundUnaryOperator) (operand : BoundExpression)
  | Literal (value : Object)
  | Variable (symbol : VariableSymbol)
  | Assignment (symbol : VariableSymbol) (expression : BoundExpression)
  deriving DecidableEq, Repr

/-- `BoundExpression::get_type` from `binding.rs`: the derived type of a
bound expression. -/
def BoundExpression.get_type : BoundExpression → ObjectKind
  | .Binary _ op _ => op.result_type
  | .Unary op _ => op.result_type
  | .Literal v => v.kind
  | .Variable v => v.kind
  | .Assignment _ e => e.get_type

/-- The bound statement tree, from `binding.rs`. -/
inductive BoundStatement where
  | Block (statements : List BoundStatement)
  | Expression (expression : BoundExpression)
  | VariableDeclaration (symbol : VariableSymbol)
      (initializer : BoundExpression)

/-- Modelled from the spec: `BoundScope` from the missing `binding/scope`
module: a mapping from variable name to symbol plus an optional owned
parent scope.  The map is modelled as an insertion-ordered list whose
names are kept unique by `try_declare`.  The source field `variables` is
named `vars` here because `variables` is a reserved word in Lean. -/
inductive BoundScope where
  | mk (vars : List VariableSymbol) (parent : Option BoundScope)

/-- The scope's own variable map, as an insertion-ordered list. -/
def BoundScope.vars : BoundScope → List VariableSymbol
  | .mk vs _ => vs

/-- The scope's optional parent scope. -/
def BoundScope.parent : BoundScope → Option BoundScope
  | .mk _ p => p

/-- Modelled from the spec: `BoundScope::try_declare` inserts the symbol
if its name is not already present in this scope only, returning whether
the insertion happened together with the resulting scope. -/
def BoundScope.try_declare : BoundScope → VariableSymbol → Bool × BoundScope
  | .mk vs p, v =>
    if vs.any (fun w => w.name == v.name) then (false, .mk vs p)
    else (true, .mk (vs ++ [v]) p)

/-- Modelled from the spec: `BoundScope::try_lookup` checks this scope,
then walks the parent chain outward; the innermost match wins. -/
def BoundScope.try_lookup : BoundScope → String → Option VariableSymbol
  | .mk vs none, name => vs.find? (fun w => w.name == name)
  | .mk vs (some parent), name =>
    match vs.find? (fun w => w.name == name) with
    | some v => some v
    | none => parent.try_lookup name

/-- Modelled from the spec: `BoundScope::get_declared_variables`, the
symbols declared directly in this scope. -/
def BoundScope.get_declared_variables (s : BoundScope) : List VariableSymbol :=
  s.vars

/-- Modelled from the spec: `BoundGlobalScope` from the missing
`binding/scope` module: the per-submission snapshot with its optional
previous snapshot, diagnostics, top-level variables and bound statement.
The source field `variables` is named `vars` here because `variables` is
a reserved word in Lean. -/
inductive BoundGlobalScope where
  | mk (previous : Option BoundGlobalScope) (diagnostics : List Diagnostic)
      (vars : List VariableSymbol) (statement : BoundStatement)

/-- The snapshot's link to the previous snapshot. -/
def BoundGlobalScope.previous : BoundGlobalScope → Option BoundGlobalScope
  | .mk p _ _ _ => p

/-- The snapshot's diagnostics. -/
def BoundGlobalScope.diagnostics : BoundGlobalScope → List Diagnostic
  | .mk _ d _ _ => d

/-- The snapshot's top-level variables. -/
def BoundGlobalScope.vars : BoundGlobalScope → List VariableSymbol
  | .mk _ _ v _ => v

/-- The snapshot's bound top-level statement. -/
def BoundGlobalScope.statement : BoundGlobalScope → BoundStatement
  | .mk _ _ _ s => s

/-- The binder's state, from `binding.rs`: the diagnostic bag (DiagnosticBag
is modelled from the spec as an ordered list) and the current scope. -/
structure Binder where
  diagnostics : List Diagnostic
  scope : BoundScope

/-- Appending one diagnostic to the binder's bag (each `report_*` method of
the missing `diagnostic` module appends one record). -/
def Binder.report (b : Binder) (d : Diagnostic) : Binder :=
  ⟨b.diagnostics ++ [d], b.scope⟩

/-- `Binder::new` from `binding.rs`: an empty diagnostic bag over the given
scope (note: the given scope is used directly, no child scope is opened). -/
def Binder.new (scope : BoundScope) : Binder :=
  ⟨[], scope⟩

/-- `Binder::bind_expression` and the per-kind `bind_*_expression` methods
of `binding.rs`, with the mutable binder threaded explicitly.  The order
of effects follows the source: operands and right-hand sides are bound
before lookups and operator resolution, and diagnostics are appended in
source order. -/
def Binder.bind_expression (b : Binder) : ExpressionSyntax → BoundExpression × Binder
  | .Literal value => (.Literal value, b)
  | .Parenthesized e => b.bind_expression e
  | .Name id =>
    match b.scope.try_lookup id.text with
    | some v => (.Variable v, b)
    | none =>
      (.Literal (.Number 0), b.report (.UndefinedName id.text))
  | .Unary tok e =>
    let p := b.bind_expression e
    match BoundUnaryOperator.bind tok.kind p.1.get_type with
    | some op => (.Unary op p.1, p.2)
    | none =>
      (p.1, p.2.report (.UndefinedUnaryOperator tok.text p.1.get_type))
  | .Binary l tok r =>
    let pl := b.bind_expression l
    let pr := pl.2.bind_expression r
    match BoundBinaryOperator.bind tok.kind pl.1.get_type pr.1.get_type with
    | some op => (.Binary pl.1 op pr.1, pr.2)
    | none =>
      (pl.1,
       pr.2.report (.UndefinedBinaryOperator tok.text pl.1.get_type pr.1.get_type))
  | .Assignment id _eq rhs =>
    let pe := b.bind_expression rhs
    match pe.2.scope.try_lookup id.text with
    | none => (pe.1, pe.2.report (.UndefinedName id.text))
    | some v =>
      let b2 := if v.is_read_only then pe.2.report (.CannotAssign id.text) else pe.2
      if pe.1.get_type ≠ v.kind then
        (pe.1, b2.report (.CannotConvert pe.1.get_type v.kind))
      else
        (.Assignment v pe.1, b2)

mutual

/-- `Binder::bind_statement` and the per-kind `bind_*_statement` methods of
`binding.rs`.  A block swaps in a fresh child scope, binds its statements
in order, then restores the parent; the source unwraps the parent, which
always exists on this path, so the (unreachable) default is the empty
scope. -/
def Binder.bind_statement (b : Binder) : StatementSyntax → BoundStatement × Binder
  | .Block stmts =>
    let b1 : Binder := ⟨b.diagnostics, .mk [] (some b.scope)⟩
    let p := Binder.bind_statements b1 stmts
    (.Block p.1, ⟨p.2.diagnostics, p.2.scope.parent.getD (.mk [] none)⟩)
  | .Expression e =>
    let p := b.bind_expression e
    (.Expression p.1, p.2)
  | .VariableDeclaration kw id init =>
    let p := b.bind_expression init
    let v : VariableSymbol := ⟨id.text, kw.kind == SyntaxKind.LetKeyword, p.1.get_type⟩
    let d := p.2.scope.try_declare v
    let b2 : Binder := ⟨p.2.diagnostics, d.2⟩
    let b3 := if d.1 then b2 else b2.report (.VariableAlreadyDeclared id.text)
    (.VariableDeclaration v p.1, b3)

/-- The loop of `bind_block_statement` over the block's statements. -/
def Binder.bind_statements (b : Binder) : List StatementSyntax → List BoundStatement × Binder
  | [] => ([], b)
  | s :: rest =>
    let p := Binder.bind_statement b s
    let q := Binder.bind_statements p.2 rest
    (p.1 :: q.1, q.2)

end

/-- `Binder::create_parent_scopes` from `binding.rs`: the stack of
snapshots collected by walking `previous` backward, newest first. -/
def BoundGlobalScope.chain : BoundGlobalScope → List BoundGlobalScope
  | .mk none d v s => [.mk none d v s]
  | .mk (some p) d v s => .mk (some p) d v s :: p.chain

/-- The declaration loop of `create_parent_scopes`: declare each variable
of a snapshot into a scope in order. -/
def declare_all (scope : BoundScope) : List VariableSymbol → BoundScope
  | [] => scope
  | v :: vs => declare_all (scope.try_declare v).2 vs

/-- The replay loop of `create_parent_scopes`: pop snapshots oldest first,
each time opening a child scope and declaring that snapshot's
variables. -/
def replay_scopes (parent : BoundScope) : List BoundGlobalScope → BoundScope
  | [] => parent
  | g :: rest =>
    replay_scopes (declare_all (.mk [] (some parent)) g.vars) rest

/-- `Binder::create_parent_scopes` from `binding.rs`: walk `previous`
backward collecting the snapshots, then replay them forward (oldest
first), one child scope per snapshot. -/
def Binder.create_parent_scopes (previous : Option BoundGlobalScope) : BoundScope :=
  replay_scopes (.mk [] none)
    (match previous with
     | none => []
     | some p => p.chain).reverse

/-- `Binder::bind_global_scope` from `binding.rs`: build the parent scope
chain, bind the compilation unit's statement with a fresh binder over it,
and emit a snapshot with `previous` set to none, the final scope's own
declared variables, and this pass's diagnostics. -/
def Binder.bind_global_scope (previous : Option BoundGlobalScope)
    (stx : CompilationUnitSyntax) : BoundGlobalScope :=
  let parent_scope := Binder.create_parent_scopes previous
  let binder := Binder.new parent_scope
  let p := binder.bind_statement stx.statement
  .mk none p.2.diagnostics p.2.scope.get_declared_variables p.1

/-- Formalisation of the claim hypothesis of C1, as the claim words it:
every name reference and assignment target resolves, and every operator
use matches a row of the operator tables with exactly matching operand
types.  It imposes nothing else (no read-only or conversion check on
assignments); on success it returns the expression's static type.  This
definition follows the claim text, not the source, and exists to be
compared with the binder. -/
def claim_check_expr (scope : BoundScope) : ExpressionSyntax → Option ObjectKind
  | .Literal v => some v.kind
  | .Parenthesized e => claim_check_expr scope e
  | .Name id =>
    match scope.try_lookup id.text with
    | some v => some v.kind
    | none => none
  | .Unary tok e =>
    match claim_check_expr scope e with
    | some k =>
      match BoundUnaryOperator.bind tok.kind k with
      | some op => some op.result_type
      | none => none
    | none => none
  | .Binary l tok r =>
    match claim_check_expr scope l, claim_check_expr scope r with
    | some kl, some kr =>
      match BoundBinaryOperator.bind tok.kind kl kr with
      | some op => some op.result_type
      | none => none
    | _, _ => none
  | .Assignment id _eq e =>
    match claim_check_expr scope e, scope.try_lookup id.text with
    | some k, some _ => some k
    | _, _ => none

mutual

/-- Statement-level version of `claim_check_expr`, following the claim
text of C1: names and operators must resolve, nothing else is checked;
the scope is threaded the way the binder threads it. -/
def claim_check_stmt (scope : BoundScope) : StatementSyntax → Option BoundScope
  | .Block stmts =>
    match claim_check_stmts (BoundScope.mk [] (some scope)) stmts with
    | some _ => some scope
    | none => none
  | .Expression e =>
    match claim_check_expr scope e with
    | some _ => some scope
    | none => none
  | .VariableDeclaration kw id init =>
    match claim_check_expr scope init with
    | some k =>
      some (scope.try_declare ⟨id.text, kw.kind == SyntaxKind.LetKeyword, k⟩).2
    | none => none

/-- The list traversal of `claim_check_stmt` over a block's statements. -/
def claim_check_stmts (scope : BoundScope) : List StatementSyntax → Option BoundScope
  | [] => some scope
  | s :: rest =>
    match claim_check_stmt scope s with
    | some scope2 => claim_check_stmts scope2 rest
    | none => none

end

/-- Formalisation of the amended hypothesis of C1: on top of
`claim_check_expr`, an assignment's target must not be read-only and the
right-hand type must equal the target's declared type.  This definition
follows the amended claim text, to be compared with the binder. -/
def check_expr (scope : BoundScope) : ExpressionSyntax → Option ObjectKind
  | .Literal v => some v.kind
  | .Parenthesized e => check_expr scope e
  | .Name id =>
    match scope.try_lookup id.text with
    | some v => some v.kind
    | none => none
  | .Unary tok e =>
    match check_expr scope e with
    | some k =>
      match BoundUnaryOperator.bind tok.kind k with
      | some op => some op.result_type
      | none => none
    | none => none
  | .Binary l tok r =>
    match check_expr scope l, check_expr scope r with
    | some kl, some kr =>
      match BoundBinaryOperator.bind tok.kind kl kr with
      | some op => some op.result_type
      | none => none
    | _, _ => none
  | .Assignment id _eq e =>
    match check_expr scope e, scope.try_lookup id.text with
    | some k, some v =>
      if v.is_read_only then none
      else if k = v.kind then some k else none
    | _, _ => none

mutual

/-- Statement-level version of the amended hypothesis of C1: on top of
`claim_check_stmt`, a declaration must not redeclare a name already
present in the current scope. -/
def check_stmt (scope : BoundScope) : StatementSyntax → Option BoundScope
  | .Block stmts =>
    match check_stmts (BoundScope.mk [] (some scope)) stmts with
    | some _ => some scope
    | none => none
  | .Expression e =>
    match check_expr scope e with
    | some _ => some scope
    | none => none
  | .VariableDeclaration kw id init =>
    match check_expr scope init with
    | some k =>
      if scope.vars.any (fun w => w.name == id.text) then none
      else some (scope.try_declare ⟨id.text, kw.kind == SyntaxKind.LetKeyword, k⟩).2
    | none => none

/-- The list traversal of `check_stmt` over a block's statements. -/
def check_stmts (scope : BoundScope) : List StatementSyntax → Option BoundScope
  | [] => some scope
  | s :: rest =>
    match check_stmt scope s with
    | some scope2 => check_stmts scope2 rest
    | none => none

end

/-- The binder's `report` leaves the scope untouched. -/
@[simp]
theorem Binder.report_scope (b : Binder) (d : Diagnostic) :
    (b.report d).scope = b.scope := rfl

/-- The binder's `report` appends exactly one diagnostic. -/
@[simp]
theorem Binder.report_diagnostics (b : Binder) (d : Diagnostic) :
    (b.report d).diagnostics = b.diagnostics ++ [d] := rfl

/-- `try_declare` never touches the parent link. -/
@[simp]
theorem BoundScope.try_declare_parent (s : BoundScope) (v : VariableSymbol) :
    ((s.try_declare v).2).parent = s.parent := by
  cases s with
  | mk vs p =>
    simp only [BoundScope.try_declare]
    split <;> rfl

/-- Binding an expression never changes the binder's scope. -/
theorem Binder.bind_expression_scope (e : ExpressionSyntax) :
    ∀ b : Binder, ((b.bind_expression e).2).scope = b.scope := by
  induction e with
  | Literal v => intro b; rfl
  | Parenthesized e ih => intro b; simp only [Binder.bind_expression]; exact ih b
  | Name id =>
    intro b
    simp only [Binder.bind_expression]
    split <;> simp
  | Unary tok e ih =>
    intro b
    simp only [Binder.bind_expression]
    split
    · exact ih b
    · simp [ih b]
  | Binary l tok r ihl ihr =>
    intro b
    simp only [Binder.bind_expression]
    split
    · rw [ihr, ihl]
    · simp only [Binder.report_scope]; rw [ihr, ihl]
  | Assignment id eqtok rhs ih =>
    intro b
    simp only [Binder.bind_expression]
    split
    · simp [ih b]
    · split
      · simp only [Binder.report_scope]
        split <;> simp [ih b]
      · split <;> simp [ih b]

/-- If the amended hypothesis of C1 accepts an expression, binding it
leaves the binder (diagnostics and scope) unchanged and the bound
expression's derived type is exactly the checked type. -/
theorem check_expr_sound (e : ExpressionSyntax) :
    ∀ (scope : BoundScope) (k : ObjectKind) (ds : List Diagnostic),
      check_expr scope e = some k →
      (Binder.bind_expression ⟨ds, scope⟩ e).2 = ⟨ds, scope⟩ ∧
      ((Binder.bind_expression ⟨ds, scope⟩ e).1).get_type = k := by
  induction e with
  | Literal v =>
    intro scope k ds h
    simp only [check_expr, Option.some.injEq] at h
    subst h
    exact ⟨rfl, rfl⟩
  | Parenthesized e ih =>
    intro scope k ds h
    simp only [check_expr] at h
    exact ih scope k ds h
  | Name id =>
    intro scope k ds h
    cases hl : scope.try_lookup id.text with
    | none => simp [check_expr, hl] at h
    | some v =>
      simp only [check_expr, hl, Option.some.injEq] at h
      subst h
      simp [Binder.bind_expression, hl, BoundExpression.get_type]
  | Unary tok e ih =>
    intro scope k ds h
    cases hce : check_expr scope e with
    | none => simp [check_expr, hce] at h
    | some k0 =>
      simp only [check_expr, hce] at h
      cases hop : BoundUnaryOperator.bind tok.kind k0 with
      | none => simp [hop] at h
      | some op =>
        simp only [hop, Option.some.injEq] at h
        obtain ⟨h1, h2⟩ := ih scope k0 ds hce
        simp only [Binder.bind_expression]
        rw [h2]
        simp only [hop, BoundExpression.get_type]
        exact ⟨h1, h⟩
  | Binary l tok r ihl ihr =>
    intro scope k ds h
    cases hcl : check_expr scope l with
    | none => simp [check_expr, hcl] at h
    | some kl =>
      cases hcr : check_expr scope r with
      | none => simp [check_expr, hcl, hcr] at h
      | some kr =>
        simp only [check_expr, hcl, hcr] at h
        cases hop : BoundBinaryOperator.bind tok.kind kl kr with
        | none => simp [hop] at h
        | some op =>
          simp only [hop, Option.some.injEq] at h
          obtain ⟨h1l, h2l⟩ := ihl scope kl ds hcl
          obtain ⟨h1r, h2r⟩ := ihr scope kr ds hcr
          simp only [Binder.bind_expression]
          rw [h1l, h2l, h1r, h2r]
          simp only [hop, BoundExpression.get_type]
          exact ⟨trivial, h⟩
  | Assignment id eqtok rhs ih =>
    intro scope k ds h
    cases hce : check_expr scope rhs with
    | none => simp [check_expr, hce] at h
    | some k0 =>
      cases hl : scope.try_lookup id.text with
      | none => simp [check_expr, hce, hl] at h
      | some v =>
        simp only [check_expr, hce, hl] at h
        cases hro : v.is_read_only with
        | true => rw [hro] at h; simp at h
        | false =>
          rw [hro] at h
          simp only [Bool.false_eq_true, if_false] at h
          by_cases hk : k0 = v.kind
          · rw [if_pos hk, Option.some.injEq] at h
            obtain ⟨h1, h2⟩ := ih scope k0 ds hce
            simp only [Binder.bind_expression]
            rw [h1]
            simp only [hl, hro, h2, Bool.false_eq_true, if_false, ne_eq, hk,
              not_true_eq_false, BoundExpression.get_type]
            exact ⟨trivial, hk ▸ h⟩
          · rw [if_neg hk] at h
            exact absurd h (by simp)

/-- Unfolding of `try_declare` through the accessors. -/
theorem BoundScope.try_declare_eq (s : BoundScope) (v : VariableSymbol) :
    s.try_declare v =
      if s.vars.any (fun w => w.name == v.name) then (false, s)
      else (true, .mk (s.vars ++ [v]) s.parent) := by
  cases s with
  | mk vs p => simp only [BoundScope.try_declare, BoundScope.vars, BoundScope.parent]

/-- `check_stmt` leaves the scope's parent link unchanged. -/
theorem check_stmt_parent (s : StatementSyntax) (scope scope2 : BoundScope)
    (h : check_stmt scope s = some scope2) : scope2.parent = scope.parent := by
  cases s with
  | Block stmts =>
    simp only [check_stmt] at h
    cases hc : check_stmts (BoundScope.mk [] (some scope)) stmts with
    | none => simp [hc] at h
    | some child2 =>
      simp only [hc, Option.some.injEq] at h
      subst h; rfl
  | Expression e =>
    simp only [check_stmt] at h
    cases hc : check_expr scope e with
    | none => simp [hc] at h
    | some k =>
      simp only [hc, Option.some.injEq] at h
      subst h; rfl
  | VariableDeclaration kw id init =>
    simp only [check_stmt] at h
    cases hc : check_expr scope init with
    | none => simp [hc] at h
    | some k =>
      simp only [hc] at h
      cases hb : scope.vars.any (fun w => w.name == id.text) with
      | true => rw [hb] at h; simp at h
      | false =>
        rw [hb] at h
        simp only [Bool.false_eq_true, if_false, Option.some.injEq] at h
        subst h
        exact BoundScope.try_declare_parent scope _

/-- `check_stmts` leaves the scope's parent link unchanged. -/
theorem check_stmts_parent (l : List StatementSyntax) :
    ∀ scope scope2, check_stmts scope l = some scope2 →
      scope2.parent = scope.parent := by
  induction l with
  | nil =>
    intro scope scope2 h
    simp only [check_stmts, Option.some.injEq] at h
    subst h; rfl
  | cons s rest ih =>
    intro scope scope2 h
    simp only [check_stmts] at h
    cases hc : check_stmt scope s with
    | none => simp [hc] at h
    | some sm =>
      simp only [hc] at h
      exact (ih sm scope2 h).trans (check_stmt_parent s scope sm hc)

mutual

/-- If the amended hypothesis of C1 accepts a statement, binding it adds
no diagnostics and the binder ends in exactly the checked scope. -/
theorem check_stmt_sound : ∀ (s : StatementSyntax) (scope scope2 : BoundScope)
    (ds : List Diagnostic), check_stmt scope s = some scope2 →
    (Binder.bind_statement ⟨ds, scope⟩ s).2 = ⟨ds, scope2⟩
  | .Block stmts, scope, scope2, ds, h => by
    simp only [check_stmt] at h
    cases hc : check_stmts (BoundScope.mk [] (some scope)) stmts with
    | none => simp [hc] at h
    | some child2 =>
      simp only [hc, Option.some.injEq] at h
      subst h
      have hb := check_stmts_sound stmts (BoundScope.mk [] (some scope)) child2 ds hc
      have hp : child2.parent = some scope :=
        (check_stmts_parent stmts (BoundScope.mk [] (some scope)) child2 hc).trans rfl
      simp only [Binder.bind_statement]
      rw [hb]
      simp [hp]
  | .Expression e, scope, scope2, ds, h => by
    simp only [check_stmt] at h
    cases hc : check_expr scope e with
    | none => simp [hc] at h
    | some k =>
      simp only [hc, Option.some.injEq] at h
      subst h
      have he := check_expr_sound e scope k ds hc
      simp only [Binder.bind_statement]
      exact he.1
  | .VariableDeclaration kw id init, scope, scope2, ds, h => by
    simp only [check_stmt] at h
    cases hc : check_expr scope init with
    | none => simp [hc] at h
    | some k =>
      simp only [hc] at h
      cases ha : scope.vars.any (fun w => w.name == id.text) with
      | true => rw [ha] at h; simp at h
      | false =>
        rw [ha] at h
        simp only [Bool.false_eq_true, if_false, Option.some.injEq] at h
        obtain ⟨h1, h2⟩ := check_expr_sound init scope k ds hc
        simp only [Binder.bind_statement]
        rw [h1, h2]
        rw [BoundScope.try_declare_eq]
        simp only [ha, Bool.false_eq_true, if_false]
        rw [← h]
        rw [BoundScope.try_declare_eq]
        simp [ha]

/-- List version of `check_stmt_sound`. -/
theorem check_stmts_sound : ∀ (l : List StatementSyntax)
    (scope scope2 : BoundScope) (ds : List Diagnostic),
    check_stmts scope l = some scope2 →
    (Binder.bind_statements ⟨ds, scope⟩ l).2 = ⟨ds, scope2⟩
  | [], scope, scope2, ds, h => by
    simp only [check_stmts, Option.some.injEq] at h
    subst h; rfl
  | s :: rest, scope, scope2, ds, h => by
    simp only [check_stmts] at h
    cases hc : check_stmt scope s with
    | none => simp [hc] at h
    | some sm =>
      simp only [hc] at h
      have e1 := check_stmt_sound s scope sm ds hc
      have e2 := check_stmts_sound rest sm scope2 ds h
      simp only [Binder.bind_statements]
      rw [e1, e2]

end

mutual

/-- Binding a statement leaves the parent link of the binder's scope
unchanged (declarations only touch the innermost scope). -/
theorem Binder.bind_statement_parent : ∀ (s : StatementSyntax) (b : Binder),
    ((Binder.bind_statement b s).2).scope.parent = b.scope.parent
  | .Block stmts, b => by
    have h : ((Binder.bind_statements ⟨b.diagnostics, .mk [] (some b.scope)⟩ stmts).2).scope.parent = some b.scope :=
      (Binder.bind_statements_parent stmts ⟨b.diagnostics, .mk [] (some b.scope)⟩).trans rfl
    simp only [Binder.bind_statement]
    rw [h]
    simp
  | .Expression e, b => by
    simp only [Binder.bind_statement]
    rw [Binder.bind_expression_scope]
  | .VariableDeclaration kw id init, b => by
    simp only [Binder.bind_statement]
    split <;>
      simp [BoundScope.try_declare_parent, Binder.bind_expression_scope]

/-- List version of `Binder.bind_statement_parent`. -/
theorem Binder.bind_statements_parent : ∀ (l : List StatementSyntax) (b : Binder),
    ((Binder.bind_statements b l).2).scope.parent = b.scope.parent
  | [], _ => rfl
  | s :: rest, b => by
    simp only [Binder.bind_statements]
    rw [Binder.bind_statements_parent rest, Binder.bind_statement_parent s]

end

/-- Binding a block restores the binder's scope exactly: the child scope
and everything declared in it are discarded. -/
theorem Binder.bind_block_scope (b : Binder) (stmts : List StatementSyntax) :
    ((Binder.bind_statement b (.Block stmts)).2).scope = b.scope := by
  have h : ((Binder.bind_statements ⟨b.diagnostics, .mk [] (some b.scope)⟩ stmts).2).scope.parent = some b.scope :=
    (Binder.bind_statements_parent stmts ⟨b.diagnostics, .mk [] (some b.scope)⟩).trans rfl
  simp only [Binder.bind_statement]
  rw [h]
  rfl

/-- The session-level lookup the spec describes: scan the snapshots newest
first, within each snapshot scan its variables in order; this definition
follows the words of §4.5 step 1 and is compared with
`create_parent_scopes`. -/
def chain_lookup (name : String) : List BoundGlobalScope → Option VariableSymbol
  | [] => none
  | g :: rest => (g.vars.find? (fun w => w.name == name)).or (chain_lookup name rest)

/-- `chain_lookup` distributes over append. -/
theorem chain_lookup_append (name : String) (l1 l2 : List BoundGlobalScope) :
    chain_lookup name (l1 ++ l2) =
      (chain_lookup name l1).or (chain_lookup name l2) := by
  induction l1 with
  | nil => simp [chain_lookup]
  | cons g rest ih =>
    simp [chain_lookup, ih, Option.or_assoc]

/-- `try_lookup` through a scope with a parent: own map first, then the
parent chain. -/
theorem BoundScope.try_lookup_eq_of_parent (s p : BoundScope)
    (hp : s.parent = some p) (name : String) :
    s.try_lookup name =
      (s.vars.find? (fun w => w.name == name)).or (p.try_lookup name) := by
  cases s with
  | mk vs po =>
    cases po with
    | none => exact absurd hp (by simp [BoundScope.parent])
    | some q =>
      have : q = p := by simpa [BoundScope.parent] using hp
      subst this
      simp only [BoundScope.try_lookup, BoundScope.vars]
      cases vs.find? (fun w => w.name == name) <;> simp

/-- `declare_all` never touches the parent link. -/
theorem declare_all_parent (vs : List VariableSymbol) :
    ∀ s : BoundScope, (declare_all s vs).parent = s.parent := by
  induction vs with
  | nil => intro s; rfl
  | cons v vs ih =>
    intro s
    simp only [declare_all]
    rw [ih, BoundScope.try_declare_parent]

/-- Looking a name up in the variable list built by `declare_all`: the
initial list wins, then the declared list in order (duplicates inside the
declared list are dropped by `try_declare`, which keeps exactly the first
occurrence of each name, so `find?` is unchanged). -/
theorem declare_all_find (vs : List VariableSymbol) :
    ∀ (s : BoundScope) (name : String),
      ((declare_all s vs).vars.find? (fun w => w.name == name)) =
        (s.vars.find? (fun w => w.name == name)).or
          (vs.find? (fun w => w.name == name)) := by
  induction vs with
  | nil => intro s name; simp [declare_all]
  | cons v vs ih =>
    intro s name
    simp only [declare_all]
    rw [ih]
    rw [BoundScope.try_declare_eq]
    cases ha : s.vars.any (fun w => w.name == v.name) with
    | true =>
      simp only [ha, if_true]
      cases hv : (v.name == name) with
      | false =>
        simp [List.find?_cons, hv]
      | true =>
        have hv2 : v.name = name := by simpa using hv
        have hsome : (s.vars.find? (fun w => w.name == name)).isSome := by
          rw [List.find?_isSome]
          obtain ⟨w, hw, hwv⟩ := List.any_eq_true.mp ha
          exact ⟨w, hw, by simp only [← hv2]; simpa using hwv⟩
        rw [Option.or_of_isSome hsome, Option.or_of_isSome hsome]
    | false =>
      simp only [ha, Bool.false_eq_true, if_false, BoundScope.vars,
        List.find?_append, Option.or_assoc]
      cases hv : (v.name == name) with
      | false => simp [List.find?_cons, hv]
      | true => simp [List.find?_cons, hv]

/-- Lookup through the scope `replay_scopes` builds: the replayed
snapshots newest first, then the initial scope. -/
theorem replay_scopes_lookup (l : List BoundGlobalScope) :
    ∀ (parent : BoundScope) (name : String),
      (replay_scopes parent l).try_lookup name =
        (chain_lookup name l.reverse).or (parent.try_lookup name) := by
  induction l with
  | nil => intro parent name; simp [replay_scopes, chain_lookup]
  | cons g rest ih =>
    intro parent name
    simp only [replay_scopes]
    rw [ih]
    have hp : (declare_all (BoundScope.mk [] (some parent)) g.vars).parent = some parent :=
      (declare_all_parent g.vars _).trans rfl
    rw [BoundScope.try_lookup_eq_of_parent _ parent hp]
    rw [declare_all_find]
    simp only [BoundScope.vars, List.find?_nil, Option.none_or]
    rw [List.reverse_cons, chain_lookup_append]
    simp [chain_lookup, Option.or_assoc, Option.or_none]

/-- The scope chain's length: the root counts one, each parent link adds
one. -/
def BoundScope.depth : BoundScope → Nat
  | .mk _ none => 1
  | .mk _ (some p) => p.depth + 1

/-- `try_declare` keeps the chain length. -/
theorem BoundScope.try_declare_depth (s : BoundScope) (v : VariableSymbol) :
    ((s.try_declare v).2).depth = s.depth := by
  cases s with
  | mk vs p =>
    simp only [BoundScope.try_declare]
    split <;> cases p <;> rfl

/-- `declare_all` keeps the chain length. -/
theorem declare_all_depth (vs : List VariableSymbol) :
    ∀ s : BoundScope, (declare_all s vs).depth = s.depth := by
  induction vs with
  | nil => intro s; rfl
  | cons v vs ih =>
    intro s
    simp only [declare_all]
    rw [ih, BoundScope.try_declare_depth]

/-- Each replayed snapshot contributes exactly one scope to the chain. -/
theorem replay_scopes_depth (l : List BoundGlobalScope) :
    ∀ parent : BoundScope,
      (replay_scopes parent l).depth = parent.depth + l.length := by
  induction l with
  | nil => intro parent; rfl
  | cons g rest ih =>
    intro parent
    simp only [replay_scopes, List.length_cons]
    rw [ih, declare_all_depth]
    simp only [BoundScope.depth]
    omega

/-- The list of snapshots reachable from `previous`, newest first (empty
when there is no previous snapshot). -/
def snapshot_chain : Option BoundGlobalScope → List BoundGlobalScope
  | none => []
  | some g => g.chain

/-- `create_parent_scopes` resolves a name exactly like the session-level
lookup over the snapshot chain, newest snapshot first. -/
theorem create_parent_scopes_lookup (prev : Option BoundGlobalScope)
    (name : String) :
    (Binder.create_parent_scopes prev).try_lookup name =
      chain_lookup name (snapshot_chain prev) := by
  simp only [Binder.create_parent_scopes]
  rw [replay_scopes_lookup]
  have : (BoundScope.mk [] none).try_lookup name = none := rfl
  rw [this, Option.or_none, List.reverse_reverse]
  cases prev <;> rfl

/-- `create_parent_scopes` builds one child scope per collected snapshot
on top of the empty root scope. -/
theorem create_parent_scopes_depth (prev : Option BoundGlobalScope) :
    (Binder.create_parent_scopes prev).depth =
      (snapshot_chain prev).length + 1 := by
  simp only [Binder.create_parent_scopes]
  rw [replay_scopes_depth]
  simp only [BoundScope.depth, List.length_reverse]
  cases prev
  · simp [snapshot_chain]
  · simp [snapshot_chain]
    omega

/-- The `let` keyword token used by the concrete examples. -/
def tokLet : SyntaxToken := ⟨.LetKeyword, "let"⟩

/-- The `var` keyword token used by the concrete examples. -/
def tokVar : SyntaxToken := ⟨.VarKeyword, "var"⟩

/-- The identifier token `a` used by the concrete examples. -/
def tokA : SyntaxToken := ⟨.IdentifierToken, "a"⟩

/-- The identifier token `n` used by the concrete examples. -/
def tokN : SyntaxToken := ⟨.IdentifierToken, "n"⟩

/-- The identifier token `x` used by the concrete examples. -/
def tokX : SyntaxToken := ⟨.IdentifierToken, "x"⟩

/-- The identifier token `y` used by the concrete examples. -/
def tokY : SyntaxToken := ⟨.IdentifierToken, "y"⟩

/-- The `+` operator token used by the concrete examples. -/
def tokPlus : SyntaxToken := ⟨.PlusToken, "+"⟩

/-- The `=` token used by the concrete examples. -/
def tokEq : SyntaxToken := ⟨.EqualsToken, "="⟩

/-- The empty root scope. -/
def emptyScope : BoundScope := .mk [] none

/-- The program `{ let a = 1 ; a = 2 }`: every name and assignment target
resolves to a declared variable and there is no operator use, yet the
assignment targets a read-only variable. -/
def c1_cex_stmt : StatementSyntax :=
  .Block [
    .VariableDeclaration tokLet tokA (.Literal (.Number 1)),
    .Expression (.Assignment tokA tokEq (.Literal (.Number 2)))]

/-- C1 fails as stated: in `{ let a = 1 ; a = 2 }` every name reference
and assignment target resolves to a previously declared variable and
every operator use (vacuously) matches the operator tables
(`claim_check_stmt` accepts it), yet binding produces a nonempty
diagnostic list: the assignment to the read-only `a` reports cannot
assign. -/
theorem C1_counterexample :
    (claim_check_stmt emptyScope c1_cex_stmt).isSome = true ∧
    (Binder.bind_statement ⟨[], emptyScope⟩ c1_cex_stmt).2.diagnostics =
      [.CannotAssign "a"] ∧
    [Diagnostic.CannotAssign "a"] ≠ [] :=
  ⟨rfl, rfl, by simp⟩

/-- C1 (amended): for a syntax tree in which every name reference and
assignment target resolves to a previously declared variable, every
operator use matches a row of the operator tables with exactly matching
operand types, and additionally no assignment targets a read-only
variable, every assignment right-hand type equals its target's declared
type, and no declaration redeclares a name already present in its exact
scope (`check_stmt` accepts), binding produces an empty diagnostic list;
and every node of a bound tree has the derived type its construct
prescribes (Literal: the value's own type; Variable: the symbol's
declared type; Assignment: the inner expression's type; Unary/Binary:
the resolved operator's result type). -/
theorem C1_checked_binding_clean (scope scope2 : BoundScope)
    (s : StatementSyntax) (h : check_stmt scope s = some scope2) :
    (Binder.bind_statement ⟨[], scope⟩ s).2.diagnostics = [] ∧
    (∀ v : Object, (BoundExpression.Literal v).get_type = v.kind) ∧
    (∀ v : VariableSymbol, (BoundExpression.Variable v).get_type = v.kind) ∧
    (∀ (v : VariableSymbol) (e : BoundExpression),
      (BoundExpression.Assignment v e).get_type = e.get_type) ∧
    (∀ (op : BoundUnaryOperator) (e : BoundExpression),
      (BoundExpression.Unary op e).get_type = op.result_type) ∧
    (∀ (l : BoundExpression) (op : BoundBinaryOperator) (r : BoundExpression),
      (BoundExpression.Binary l op r).get_type = op.result_type) := by
  refine ⟨?_, fun _ => rfl, fun _ => rfl, fun _ _ => rfl, fun _ _ => rfl,
    fun _ _ _ => rfl⟩
  rw [check_stmt_sound s scope scope2 [] h]

/-- The well-formed program `{ var x = 1 ; x = x + 1 }` used to exercise
the amended C1. -/
def c1_wit_stmt : StatementSyntax :=
  .Block [
    .VariableDeclaration tokVar tokX (.Literal (.Number 1)),
    .Expression (.Assignment tokX tokEq (.Binary (.Name tokX) tokPlus (.Literal (.Number 1))))]

/-- Witness for the amended C1 at `{ var x = 1 ; x = x + 1 }`. -/
theorem C1_checked_binding_clean_witness :
    check_stmt emptyScope c1_wit_stmt = some emptyScope ∧
    (Binder.bind_statement ⟨[], emptyScope⟩ c1_wit_stmt).2.diagnostics = [] :=
  ⟨rfl, (C1_checked_binding_clean emptyScope emptyScope c1_wit_stmt rfl).1⟩

/-- The snapshot of the first submission `let a = 1`, bound with no
previous snapshot. -/
def session_snap1 : BoundGlobalScope :=
  Binder.bind_global_scope none ⟨.VariableDeclaration tokLet tokA (.Literal (.Number 1))⟩

/-- C2: the scope chain `bind_global_scope` rebuilds resolves a name
exactly like a newest-snapshot-first scan of the collected snapshot chain
(`chain_lookup`), so every variable declared at top level in any
collected snapshot is resolvable and a later snapshot's same-named
variable shadows an earlier one's; the chain has one child scope per
snapshot over the empty root; and the session `let a = 1` followed (with
that snapshot as `previous`) by `a + 1` binds `a` with zero diagnostics
in both passes. -/
theorem C2_session_replay (prev : Option BoundGlobalScope) (name : String) :
    ((Binder.create_parent_scopes prev).try_lookup name =
      chain_lookup name (snapshot_chain prev)) ∧
    ((Binder.create_parent_scopes prev).depth =
      (snapshot_chain prev).length + 1) ∧
    session_snap1.diagnostics = [] ∧
    (Binder.bind_global_scope (some session_snap1)
      ⟨.Expression (.Binary (.Name tokA) tokPlus (.Literal (.Number 1)))⟩).diagnostics = [] :=
  ⟨create_parent_scopes_lookup prev name, create_parent_scopes_depth prev,
   rfl, rfl⟩

/-- C3: when the assignment target is declared and the bound right-hand
expression's type differs from its declared type, binding reports a
cannot-convert diagnostic naming the source and target types and returns
the bound right-hand expression itself — no Assignment node is built on
this path (a read-only target additionally reports cannot-assign
first). -/
theorem C3_assignment_type_mismatch (b : Binder) (id eqtok : SyntaxToken)
    (rhs : ExpressionSyntax) (v : VariableSymbol)
    (hl : b.scope.try_lookup id.text = some v)
    (hk : ((b.bind_expression rhs).1).get_type ≠ v.kind) :
    b.bind_expression (.Assignment id eqtok rhs) =
      ((b.bind_expression rhs).1,
       ⟨((b.bind_expression rhs).2).diagnostics ++
          (if v.is_read_only then [Diagnostic.CannotAssign id.text] else []) ++
          [Diagnostic.CannotConvert ((b.bind_expression rhs).1).get_type v.kind],
        b.scope⟩) := by
  have hs : ((b.bind_expression rhs).2).scope = b.scope :=
    Binder.bind_expression_scope rhs b
  simp only [Binder.bind_expression, hs, hl]
  rw [if_pos hk]
  cases hro : v.is_read_only <;>
    simp [hro, Binder.report, hs, List.append_assoc]

/-- Witness for C3: assigning `true` to the mutable Number variable `n`. -/
theorem C3_assignment_type_mismatch_witness :
    Binder.bind_expression ⟨[], .mk [⟨"n", false, .Number⟩] none⟩
        (.Assignment tokN tokEq (.Literal (.Boolean true))) =
      (.Literal (.Boolean true),
       ⟨[.CannotConvert .Boolean .Number], .mk [⟨"n", false, .Number⟩] none⟩) := by
  have h := C3_assignment_type_mismatch ⟨[], .mk [⟨"n", false, .Number⟩] none⟩
    tokN tokEq (.Literal (.Boolean true)) ⟨"n", false, .Number⟩ rfl (by decide)
  simpa using h

/-- C4: a name reference whose identifier is absent from the scope chain
reports exactly one undefined-name diagnostic and produces the fallback
Literal holding numeric zero, whose derived type is Number. -/
theorem C4_undefined_name (b : Binder) (id : SyntaxToken)
    (h : b.scope.try_lookup id.text = none) :
    b.bind_expression (.Name id) =
      (.Literal (.Number 0),
       ⟨b.diagnostics ++ [Diagnostic.UndefinedName id.text], b.scope⟩) ∧
    (BoundExpression.Literal (.Number 0)).get_type = .Number := by
  constructor
  · simp only [Binder.bind_expression, h]
    rfl
  · rfl

/-- Witness for C4: the undeclared name `y` in the empty scope. -/
theorem C4_undefined_name_witness :
    Binder.bind_expression ⟨[], emptyScope⟩ (.Name tokY) =
      (.Literal (.Number 0), ⟨[Diagnostic.UndefinedName "y"], emptyScope⟩) ∧
    (BoundExpression.Literal (.Number 0)).get_type = .Number := by
  have h := C4_undefined_name ⟨[], emptyScope⟩ tokY rfl
  simpa using h

/-- The shadowing program `{ var x = 1 ; { var x = true ; x } ; x }`. -/
def c5_shadow_stmt : StatementSyntax :=
  .Block [
    .VariableDeclaration tokVar tokX (.Literal (.Number 1)),
    .Block [
      .VariableDeclaration tokVar tokX (.Literal (.Boolean true)),
      .Expression (.Name tokX)],
    .Expression (.Name tokX)]

/-- C5: a block is bound by binding its inner statements in order inside
a fresh child scope of the current scope, and the current scope is
restored exactly afterwards, so block-local declarations never reach the
enclosing scope; concretely, in
`{ var x = 1 ; { var x = true ; x } ; x }` the inner reference resolves
to the inner Boolean `x` and the reference after the inner block closes
resolves to the outer Number `x`, with no diagnostics. -/
theorem C5_block_scoping (b : Binder) (stmts : List StatementSyntax) :
    ((Binder.bind_statement b (.Block stmts)).2).scope = b.scope ∧
    (Binder.bind_statement b (.Block stmts)).1 =
      .Block (Binder.bind_statements
        ⟨b.diagnostics, .mk [] (some b.scope)⟩ stmts).1 ∧
    (Binder.bind_statement ⟨[], emptyScope⟩ c5_shadow_stmt).1 =
      .Block [
        .VariableDeclaration ⟨"x", false, .Number⟩ (.Literal (.Number 1)),
        .Block [
          .VariableDeclaration ⟨"x", false, .Boolean⟩ (.Literal (.Boolean true)),
          .Expression (.Variable ⟨"x", false, .Boolean⟩)],
        .Expression (.Variable ⟨"x", false, .Number⟩)] ∧
    (Binder.bind_statement ⟨[], emptyScope⟩ c5_shadow_stmt).2.diagnostics = [] :=
  ⟨Binder.bind_block_scope b stmts, rfl, rfl, rfl⟩

/-- The binder state after binding the first declaration `let a = 1` in
the empty scope. -/
def c6_after_first : Binder :=
  (Binder.bind_statement ⟨[], emptyScope⟩
    (.VariableDeclaration tokLet tokA (.Literal (.Number 1)))).2

/-- C6: binding a variable declaration whose name is already present in
the current scope reports exactly one variable-already-declared
diagnostic, leaves the scope's mapping unchanged, and still emits a bound
VariableDeclaration carrying the second, non-inserted symbol, whose
read-only flag comes from its own declaring keyword and whose type equals
its own initializer's resolved type. -/
theorem C6_duplicate_declaration (b : Binder) (kw id : SyntaxToken)
    (init : ExpressionSyntax)
    (ha : b.scope.vars.any (fun w => w.name == id.text) = true) :
    Binder.bind_statement b (.VariableDeclaration kw id init) =
      (.VariableDeclaration
         ⟨id.text, kw.kind == SyntaxKind.LetKeyword,
          ((b.bind_expression init).1).get_type⟩
         (b.bind_expression init).1,
       ⟨((b.bind_expression init).2).diagnostics ++
          [Diagnostic.VariableAlreadyDeclared id.text],
        b.scope⟩) := by
  have hs : ((b.bind_expression init).2).scope = b.scope :=
    Binder.bind_expression_scope init b
  simp only [Binder.bind_statement]
  rw [BoundScope.try_declare_eq, hs]
  simp only [ha, if_true]
  simp [Binder.report, hs]

/-- Witness for C6: `let a = 1` then `var a = true` in the same scope. -/
theorem C6_duplicate_declaration_witness :
    Binder.bind_statement c6_after_first
        (.VariableDeclaration tokVar tokA (.Literal (.Boolean true))) =
      (.VariableDeclaration ⟨"a", false, .Boolean⟩ (.Literal (.Boolean true)),
       ⟨[Diagnostic.VariableAlreadyDeclared "a"],
        .mk [⟨"a", true, .Number⟩] none⟩) := by
  have h := C6_duplicate_declaration c6_after_first tokVar tokA
    (.Literal (.Boolean true)) rfl
  simpa using h

/-- C7: a binary expression binds both operands; when their types match
no row of the binary operator table it reports exactly one
undefined-binary-operator diagnostic (naming the operator text and both
types) and returns the bound left operand unchanged; when a row matches
it emits a Binary bound expression carrying the resolved operator; in
particular `1 + true` yields exactly one undefined-binary-operator
diagnostic. -/
theorem C7_binary_operator (b : Binder) (l r : ExpressionSyntax)
    (tok : SyntaxToken) :
    (BoundBinaryOperator.bind tok.kind ((b.bind_expression l).1).get_type
        ((((b.bind_expression l).2).bind_expression r).1).get_type = none →
      b.bind_expression (.Binary l tok r) =
        ((b.bind_expression l).1,
         ⟨((((b.bind_expression l).2).bind_expression r).2).diagnostics ++
            [Diagnostic.UndefinedBinaryOperator tok.text
              ((b.bind_expression l).1).get_type
              ((((b.bind_expression l).2).bind_expression r).1).get_type],
          b.scope⟩)) ∧
    (∀ op : BoundBinaryOperator,
      BoundBinaryOperator.bind tok.kind ((b.bind_expression l).1).get_type
          ((((b.bind_expression l).2).bind_expression r).1).get_type = some op →
      b.bind_expression (.Binary l tok r) =
        (.Binary (b.bind_expression l).1 op
          (((b.bind_expression l).2).bind_expression r).1,
         (((b.bind_expression l).2).bind_expression r).2)) ∧
    (Binder.bind_expression ⟨[], emptyScope⟩
        (.Binary (.Literal (.Number 1)) tokPlus (.Literal (.Boolean true))) =
      (.Literal (.Number 1),
       ⟨[.UndefinedBinaryOperator "+" .Number .Boolean], emptyScope⟩)) := by
  refine ⟨?_, ?_, rfl⟩
  · intro h
    simp only [Binder.bind_expression, h]
    simp [Binder.report, Binder.bind_expression_scope]
  · intro op h
    simp only [Binder.bind_expression, h]

/-- Witness for C7: `1 + true` exercises the no-row branch and `1 + 1`
the matching-row branch. -/
theorem C7_binary_operator_witness :
    (Binder.bind_expression ⟨[], emptyScope⟩
        (.Binary (.Literal (.Number 1)) tokPlus (.Literal (.Boolean true))) =
      (.Literal (.Number 1),
       ⟨[.UndefinedBinaryOperator "+" .Number .Boolean], emptyScope⟩)) ∧
    (Binder.bind_expression ⟨[], emptyScope⟩
        (.Binary (.Literal (.Number 1)) tokPlus (.Literal (.Number 1))) =
      (.Binary (.Literal (.Number 1))
        ⟨.PlusToken, .Addition, .Number, .Number, .Number⟩
        (.Literal (.Number 1)),
       ⟨[], emptyScope⟩)) := by
  constructor
  · have h := (C7_binary_operator ⟨[], emptyScope⟩ (.Literal (.Number 1))
      (.Literal (.Boolean true)) tokPlus).1 rfl
    simpa using h
  · have h := (C7_binary_operator ⟨[], emptyScope⟩ (.Literal (.Number 1))
      (.Literal (.Number 1)) tokPlus).2.1
      ⟨.PlusToken, .Addition, .Number, .Number, .Number⟩ rfl
    simpa using h

/-- C8 fails as stated: the first submission `let a = 1` yields a
snapshot declaring `a`; a second pass over the expression statement `a`
(which declares nothing) with that snapshot as `previous` returns a
snapshot whose variables still contain `a`, because the binder's final
scope is the very scope into which the previous snapshot's variables were
replayed — the inherited symbol is not excluded. -/
theorem C8_counterexample :
    (Binder.bind_global_scope (some session_snap1)
        ⟨.Expression (.Name tokA)⟩).vars = [⟨"a", true, .Number⟩] ∧
    ([⟨"a", true, ObjectKind.Number⟩] : List VariableSymbol) ≠ [] :=
  ⟨rfl, by simp⟩

/-- C8 (amended): every snapshot returned by `bind_global_scope` has
`previous` set to none and diagnostics exactly those accumulated during
this pass; its variables are the symbols declared directly in the
binder's final (innermost) scope, which starts as the scope the newest
previous snapshot was replayed into — so symbols inherited from the
newest previous snapshot are included rather than excluded, while older
ancestors' symbols stay in outer scopes; when the top-level statement is
a block, the block's own declarations are discarded with its child scope
and the variables are exactly those of the replayed scope. -/
theorem C8_snapshot_fields (prev : Option BoundGlobalScope)
    (stx : CompilationUnitSyntax) :
    (Binder.bind_global_scope prev stx).previous = none ∧
    (Binder.bind_global_scope prev stx).diagnostics =
      ((Binder.new (Binder.create_parent_scopes prev)).bind_statement
        stx.statement).2.diagnostics ∧
    (Binder.bind_global_scope prev stx).vars =
      ((Binder.new (Binder.create_parent_scopes prev)).bind_statement
        stx.statement).2.scope.vars ∧
    (∀ stmts, stx.statement = .Block stmts →
      (Binder.bind_global_scope prev stx).vars =
        (Binder.create_parent_scopes prev).vars) := by
  refine ⟨rfl, rfl, rfl, ?_⟩
  intro stmts hs
  cases stx with
  | mk st =>
    simp only at hs
    subst hs
    simp only [Binder.bind_global_scope, BoundGlobalScope.vars,
      BoundScope.get_declared_variables]
    rw [Binder.bind_block_scope]
    rfl

/-- Witness for the amended C8 at the empty block with no previous
snapshot. -/
theorem C8_snapshot_fields_witness :
    (Binder.bind_global_scope none ⟨.Block []⟩).previous = none ∧
    (Binder.bind_global_scope none ⟨.Block []⟩).vars =
      (Binder.create_parent_scopes none).vars :=
  ⟨(C8_snapshot_fields none ⟨.Block []⟩).1,
   (C8_snapshot_fields none ⟨.Block []⟩).2.2.2 [] rfl⟩

/-- C9: a read-only assignment target does not stop binding: with a
type-mismatched right-hand side both cannot-assign and cannot-convert are
recorded for the one assignment; with matching types a proper Assignment
node is still emitted alongside the single cannot-assign diagnostic. -/
theorem C9_readonly_assignment (b : Binder) (id eqtok : SyntaxToken)
    (rhs : ExpressionSyntax) (v : VariableSymbol)
    (hl : b.scope.try_lookup id.text = some v)
    (hro : v.is_read_only = true) :
    (((b.bind_expression rhs).1).get_type ≠ v.kind →
      b.bind_expression (.Assignment id eqtok rhs) =
        ((b.bind_expression rhs).1,
         ⟨((b.bind_expression rhs).2).diagnostics ++
            [Diagnostic.CannotAssign id.text,
             Diagnostic.CannotConvert ((b.bind_expression rhs).1).get_type v.kind],
          b.scope⟩)) ∧
    (((b.bind_expression rhs).1).get_type = v.kind →
      b.bind_expression (.Assignment id eqtok rhs) =
        (.Assignment v (b.bind_expression rhs).1,
         ⟨((b.bind_expression rhs).2).diagnostics ++
            [Diagnostic.CannotAssign id.text],
          b.scope⟩)) := by
  have hs : ((b.bind_expression rhs).2).scope = b.scope :=
    Binder.bind_expression_scope rhs b
  constructor
  · intro hk
    simp only [Binder.bind_expression, hs, hl]
    rw [if_pos hk]
    simp [hro, Binder.report, hs]
  · intro hk
    simp only [Binder.bind_expression, hs, hl]
    rw [if_neg (by simp [hk])]
    simp [hro, Binder.report, hs]

/-- Witness for C9: with the read-only Number `a`, the assignment
`a = true` records both diagnostics and `a = 1` still emits an Assignment
node beside the cannot-assign diagnostic. -/
theorem C9_readonly_assignment_witness :
    (Binder.bind_expression ⟨[], .mk [⟨"a", true, .Number⟩] none⟩
        (.Assignment tokA tokEq (.Literal (.Boolean true))) =
      (.Literal (.Boolean true),
       ⟨[.CannotAssign "a", .CannotConvert .Boolean .Number],
        .mk [⟨"a", true, .Number⟩] none⟩)) ∧
    (Binder.bind_expression ⟨[], .mk [⟨"a", true, .Number⟩] none⟩
        (.Assignment tokA tokEq (.Literal (.Number 2))) =
      (.Assignment ⟨"a", true, .Number⟩ (.Literal (.Number 2)),
       ⟨[.CannotAssign "a"], .mk [⟨"a", true, .Number⟩] none⟩)) := by
  constructor
  · have h := (C9_readonly_assignment ⟨[], .mk [⟨"a", true, .Number⟩] none⟩
      tokA tokEq (.Literal (.Boolean true)) ⟨"a", true, .Number⟩ rfl rfl).1
      (by decide)
    simpa using h
  · have h := (C9_readonly_assignment ⟨[], .mk [⟨"a", true, .Number⟩] none⟩
      tokA tokEq (.Literal (.Number 2)) ⟨"a", true, .Number⟩ rfl rfl).2 rfl
    simpa using h

/-- C10: the binding pass is total.  `bind_statement`, `bind_expression`
and `bind_global_scope` are accepted by Lean's termination checker as
structurally recursive functions over the finite syntax tree and the
finite snapshot chain, so on every input they compute a result. -/
theorem C10_binding_terminates (b : Binder) (s : StatementSyntax)
    (e : ExpressionSyntax) (prev : Option BoundGlobalScope)
    (stx : CompilationUnitSyntax) :
    (∃ r, b.bind_statement s = r) ∧
    (∃ r, b.bind_expression e = r) ∧
    (∃ g, Binder.bind_global_scope prev stx = g) :=
  ⟨⟨_, rfl⟩, ⟨_, rfl⟩, ⟨_, rfl⟩⟩

end Minsk
